import Mathlib

/-!
A shallow embedding of the Scrollmarks library (dist/scrollmarks.js).

Numbers that are JS floats in the source (scroll offsets, trigger points,
document heights, configuration values) are modelled as integers (float
rounding and fractional pixel values are outside the scope of the claims,
which only use ordered arithmetic); a JS
number that may be NaN or undefined is modelled as Option Int, with none
standing for NaN/undefined (every comparison against none is false, as in
JS). JS objects holding marks live in an explicit heap indexed by Nat
addresses, so that in-place mutation and object identity are expressible.
DOM side effects (event listeners, the debug helper element) are cosmetic
and are not part of the state; callback invocations, mark removals and
idle scheduling requests are recorded in an event trace.
-/

namespace Scrollmarks

/-- Scroll direction, the JS strings "up" / "down". -/
inductive Direction where
  | up
  | down
deriving DecidableEq, Repr

/-- JS values as far as the library inspects them: undefined, null, booleans,
numbers (NaN kept apart), strings, functions and HTML elements are opaque
references identified by Nat ids. -/
inductive JSVal where
  | undef
  | nullV
  | boolV (b : Bool)
  | num (q : Int)
  | nan
  | str (s : String)
  | fn (id : Nat)
  | elem (id : Nat)
deriving DecidableEq, Repr

/-- JS truthiness. -/
def truthy : JSVal → Bool
  | .undef => false
  | .nullV => false
  | .boolV b => b
  | .num q => !(q == 0)
  | .nan => false
  | .str s => !(s == "")
  | .fn _ => true
  | .elem _ => true

/-- typeof value === "number" (NaN is a number in JS). -/
def isNumberJS : JSVal → Bool
  | .num _ => true
  | .nan => true
  | _ => false

/-- typeof value === "function". -/
def isFunctionJS : JSVal → Bool
  | .fn _ => true
  | _ => false

/-- typeof value === "string". -/
def isStringJS : JSVal → Bool
  | .str _ => true
  | _ => false

/-- value === undefined. -/
def isUndefinedJS : JSVal → Bool
  | .undef => true
  | _ => false

/-- typeof value === "boolean". -/
def isBooleanJS : JSVal → Bool
  | .boolV _ => true
  | _ => false

/-- value instanceof HTMLElement. -/
def isElemJS : JSVal → Bool
  | .elem _ => true
  | _ => false

/-- Leading-digit accumulation for parseIntJS. -/
def digitsToNat (cs : List Char) : Nat :=
  cs.foldl (fun acc c => acc * 10 + (c.toNat - 48)) 0

/-- JS parseInt in base 10: skip whitespace, optional sign, leading digits;
none models the NaN result when no digits are found. -/
def parseIntJS (s : String) : Option Int :=
  let cs := s.toList.dropWhile (fun c => c.isWhitespace)
  let signed : Bool × List Char :=
    match cs with
    | '-' :: rest => (true, rest)
    | '+' :: rest => (false, rest)
    | _ => (false, cs)
  let ds := signed.2.takeWhile (fun c => c.isDigit)
  if ds.isEmpty then none
  else some (if signed.1 then -(digitsToNat ds : Int) else (digitsToNat ds : Int))

/-- The computedOffset field written by add: either a number (possibly NaN),
a user-supplied function, or the closure generated from a percentage string
(the original string is captured; parseInt runs at evaluation time). -/
inductive COffVal where
  | undefC
  | numC (q : Int)
  | nanC
  | fnUser (id : Nat)
  | fnPercent (s : String)
deriving DecidableEq, Repr

/-- A mark object on the JS heap. The first six fields are caller-supplied;
computedOffset, key, triggerPoint and helper are written by the library.
triggerPoint none models undefined/NaN. -/
structure MarkObj where
  element : JSVal
  callback : JSVal
  offset : JSVal
  direction : JSVal
  once : JSVal
  debug : JSVal
  computedOffset : COffVal
  key : Nat
  triggerPoint : Option Int
  helper : Bool
deriving DecidableEq, Repr

/-- A mark object with every field undefined / unset, as a fresh JS object
literal before add writes to it. -/
def mark0 : MarkObj :=
  { element := .undef, callback := .undef, offset := .undef, direction := .undef,
    once := .undef, debug := .undef, computedOffset := .undefC, key := 0,
    triggerPoint := none, helper := false }

/-- The configuration object: scrollThrottle, resizeThrottle, idleTimeout.
Values are JS numbers that validation may let be NaN, hence Option Int. -/
structure Config where
  scrollThrottle : Option Int
  resizeThrottle : Option Int
  idleTimeout : Option Int
deriving DecidableEq, Repr

/-- The browser environment read by the library: scroll position, viewport
height, document scroll height, per-element visibility (offsetParent not
null) and bounding-rect top, and the results of user offset functions. -/
structure Env where
  pageYOffset : Int
  innerHeight : Int
  scrollHeight : Int
  elemVisible : Nat → Bool
  elemTop : Nat → Int
  fnApp : Nat → JSVal → JSVal

/-- The module-level state of scrollmarks.js. scrollMarks is the Map from
keys to heap addresses in insertion order; clock is the truthiness of the
requestAnimationFrame handle. -/
structure SMState where
  scrollMarks : List (Nat × Nat)
  heap : Nat → MarkObj
  index : Nat
  config : Config
  clock : Bool
  scrolled : Bool
  scrollTick : Int
  previousScroll : Int
  scrollDirection : Option Direction
  resized : Bool
  resizeTick : Int
  previousHeight : Int

/-- Observable effects: a callback invocation (callback id, direction
argument, mark address argument), a remove call, and the scheduling of the
idle trigger-point recompute (idle runs updateTriggerPoints now when
idleTimeout is 0, or at idle time otherwise; the claims only concern that
the recompute was triggered, so the trace records the request). -/
inductive Event where
  | callback (cb : Nat) (dir : Option Direction) (addr : Nat)
  | removeMark (key : Nat)
  | scheduleRecompute
deriving DecidableEq, Repr

/-- The errors thrown by the library, with the data the message carries:
errorMessage(tag, param, expected, actual) for TypeErrors, the RangeError
of setOption, the ReferenceError for an invalid config key, and the
TypeError thrown when an offset function returns a non-number. -/
inductive JSErr where
  | typeErr (tag : String) (param : String) (expected : String) (actual : JSVal)
  | rangeErr (param : String) (limit : Int) (actual : JSVal)
  | refErr (param : String)
  | offsetFnErr (actual : JSVal)
deriving DecidableEq, Repr

/-- Map.has on the key-to-address association list. -/
def mapHas (l : List (Nat × Nat)) (k : Nat) : Bool :=
  l.any (fun p => p.1 == k)

/-- Map.set: update in place when the key exists, append otherwise
(JS Map preserves insertion order). -/
def mapSet (l : List (Nat × Nat)) (k v : Nat) : List (Nat × Nat) :=
  if l.any (fun p => p.1 == k) then l.map (fun p => if p.1 == k then (k, v) else p)
  else l ++ [(k, v)]

/-- Map.delete: with unique keys, dropping every pair with the key. -/
def mapDelete (l : List (Nat × Nat)) (k : Nat) : List (Nat × Nat) :=
  l.filter (fun p => p.1 != k)

/-- String suffix test, as offset.slice(-1) === a one-char suffix or
offset.slice(-2) === a two-char suffix. -/
def strEndsWith (s suffix : String) : Bool :=
  let cs := s.toList
  let tf := suffix.toList
  cs.drop (cs.length - tf.length) == tf

/-- setInitialState(): reset clock, scroll bookkeeping, dirty flags and the
tick counters (resetTicks sets both counters to 1). previousHeight is read
from document.body.scrollHeight. scrollDirection is not reset. -/
def setInitialState (env : Env) (s : SMState) : SMState :=
  { s with clock := false, previousScroll := 0, previousHeight := env.scrollHeight,
           scrolled := false, resized := false, scrollTick := 1, resizeTick := 1 }

/-- start(): only when the clock is not running and the registry is
non-empty, install listeners (DOM, not modelled) and schedule the first
tick, making the clock truthy. -/
def start (s : SMState) : SMState :=
  if !s.clock && !s.scrollMarks.isEmpty then { s with clock := true } else s

/-- stop(): when the clock is running, cancel the frame, remove listeners
(DOM, not modelled) and call setInitialState. -/
def stop (env : Env) (s : SMState) : SMState :=
  if s.clock then setInitialState env s else s

/-- remove(key): removeHelperElement only touches the DOM helper node; then
Map.delete, and stop() when the registry became empty. Returns the updated
state, the trace of the removal, and the delete success flag. -/
def removeOp (env : Env) (k : Nat) (s : SMState) : SMState × List Event × Bool :=
  let success := mapHas s.scrollMarks k
  let s1 := { s with scrollMarks := mapDelete s.scrollMarks k }
  let s2 := if s1.scrollMarks.isEmpty then stop env s1 else s1
  (s2, ([Event.removeMark k], success))

/-- The offset-validation cascade of add: undefined defaults to 0; a number
or function is used as is (NaN is a number); a percentage string becomes a
closure capturing the string; a px string is parseInt-ed now; anything
else is a TypeError naming the parameter, the expected shape and the
actual value. -/
def offsetToComputed (off : JSVal) : Except JSErr COffVal :=
  if isUndefinedJS off then .ok (.numC 0)
  else if isNumberJS off || isFunctionJS off then
    .ok (match off with
         | .num q => .numC q
         | .nan => .nanC
         | .fn id => .fnUser id
         | _ => .numC 0)
  else
    match off with
    | .str s =>
      if strEndsWith s "%" then .ok (.fnPercent s)
      else if strEndsWith s "px" then
        .ok (match parseIntJS s with
             | some n => .numC (n : Int)
             | none => .nanC)
      else .error (.typeErr "Optional" "offset" "a number, px, %, or a function" off)
    | _ => .error (.typeErr "Optional" "offset" "a number, px, %, or a function" off)

/-- Whether the offset passes the validation cascade. -/
def offsetAccepted (off : JSVal) : Bool :=
  match offsetToComputed off with
  | .ok _ => true
  | .error _ => false

/-- Evaluate a computedOffset at trigger-point-calculation time: numbers as
themselves, a user function applied to the element, the percentage closure
as innerHeight * parseInt(str) / 100. -/
def evalCOff (env : Env) (co : COffVal) (elemV : JSVal) : JSVal :=
  match co with
  | .undefC => .undef
  | .numC q => .num q
  | .nanC => .nan
  | .fnUser id => env.fnApp id elemV
  | .fnPercent s =>
    match parseIntJS s with
    | some n => .num (env.innerHeight * (n : Int) / 100)
    | none => .nan

/-- getBoundingClientRect().top of a mark element (marks always hold a real
element after validation). -/
def elemTopV (env : Env) (v : JSVal) : Int :=
  match v with
  | .elem id => env.elemTop id
  | _ => 0

/-- offsetParent !== null of a mark element. -/
def elemVisibleV (env : Env) (v : JSVal) : Bool :=
  match v with
  | .elem id => env.elemVisible id
  | _ => false

/-- calculateTriggerPoint(mark): evaluate the computed offset; a non-number
result is a fatal TypeError; otherwise write
pageYOffset + boundingRect.top - offsetValue onto mark.triggerPoint (NaN
propagates to a none trigger point), and in debug mode create/refresh the
helper overlay (only its existence is modelled). -/
def calculateTriggerPoint (env : Env) (a : Nat) (s : SMState) : Except JSErr SMState :=
  let m := s.heap a
  match evalCOff env m.computedOffset m.element with
  | .num q =>
    let m1 := { m with triggerPoint := some (env.pageYOffset + elemTopV env m.element - q) }
    let m2 := if truthy m1.debug then { m1 with helper := true } else m1
    .ok { s with heap := Function.update s.heap a m2 }
  | .nan =>
    let m1 := { m with triggerPoint := (none : Option Int) }
    let m2 := if truthy m1.debug then { m1 with helper := true } else m1
    .ok { s with heap := Function.update s.heap a m2 }
  | v => .error (.offsetFnErr v)

/-- add(mark): validate element, callback, offset (writing computedOffset on
success of that step), direction, once, debug; compute the initial trigger
point; then assign mark.key = index++, store the address in the registry
and start the clock when it is not running. A thrown error carries the
state as mutated so far (the throw aborts before later writes). -/
def addOp (env : Env) (s : SMState) (a : Nat) : Except (JSErr × SMState) (Nat × SMState) :=
  let m := s.heap a
  if !isElemJS m.element then
    .error (.typeErr "" "element" "an HTML Element" m.element, s)
  else if !isFunctionJS m.callback then
    .error (.typeErr "" "callback" "a function" m.callback, s)
  else
    match offsetToComputed m.offset with
    | .error e => .error (e, s)
    | .ok co =>
      let s1 := { s with heap := Function.update s.heap a { m with computedOffset := co } }
      if !(isUndefinedJS m.direction || m.direction == .str "up" || m.direction == .str "down") then
        .error (.typeErr "Optional" "direction" "up or down" m.direction, s1)
      else if !(isUndefinedJS m.once || isBooleanJS m.once) then
        .error (.typeErr "Optional" "once" "boolean" m.once, s1)
      else if !(isUndefinedJS m.debug || isBooleanJS m.debug) then
        .error (.typeErr "Optional" "debug" "boolean" m.debug, s1)
      else
        match calculateTriggerPoint env a s1 with
        | .error e => .error (e, s1)
        | .ok s2 =>
          let key := s2.index
          let s3 := { s2 with heap := Function.update s2.heap a { s2.heap a with key := key } }
          let s4 := { s3 with index := s3.index + 1, scrollMarks := mapSet s3.scrollMarks key a }
          .ok (key, if !s4.clock then start s4 else s4)

/-- The JS value of the scrollDirection module variable. -/
def dirToVal : Option Direction → JSVal
  | none => .undef
  | some .up => .str "up"
  | some .down => .str "down"

/-- directionMatches(markDirection, direction):
not markDirection, or markDirection === (direction or scrollDirection). -/
def directionMatches (markDirection direction : JSVal) (sd : Option Direction) : Bool :=
  !truthy markDirection ||
    markDirection == (if truthy direction then direction else dirToVal sd)

/-- previousScroll < triggerPoint, false when the trigger point is
NaN/undefined (JS comparison with NaN). -/
def jsLtTp (prev : Int) (tp : Option Int) : Bool :=
  match tp with
  | some q => decide (prev < q)
  | none => false

/-- triggerPoint <= currentScroll, false when the trigger point is
NaN/undefined. -/
def jsTpLe (tp : Option Int) (curr : Int) : Bool :=
  match tp with
  | some q => decide (q ≤ curr)
  | none => false

/-- The crossing test of checkMarks:
(previousScroll < triggerPoint) === (triggerPoint <= currentScroll). -/
def crossedB (prev : Int) (tp : Option Int) (curr : Int) : Bool :=
  jsLtTp prev tp == jsTpLe tp curr

/-- The direction computed at the top of checkMarks:
previousScroll < currentScroll ? down : up. -/
def dirOf (env : Env) (s : SMState) : Direction :=
  if s.previousScroll < env.pageYOffset then .down else .up

/-- The registry pass of checkMarks: for each mark in insertion order, keep
it when its element is visible, its direction filter matches the direction
just computed, and the crossing test holds; the queue stores the mark
references (heap addresses). -/
def queueOf (env : Env) (s : SMState) : List Nat :=
  (s.scrollMarks.filter (fun ka =>
    let m := s.heap ka.2
    elemVisibleV env m.element &&
      directionMatches m.direction JSVal.undef (some (dirOf env s)) &&
      crossedB s.previousScroll m.triggerPoint env.pageYOffset)).map Prod.snd

/-- NaN-propagating subtraction of two JS numbers. -/
def jsSubN (x y : Option Int) : Option Int :=
  match x, y with
  | some p, some q => some (p - q)
  | _, _ => none

/-- comparator(a, b) <= 0, which in a JS sort keeps a before b; false when
the comparator value is NaN. -/
def compLe (c : Option Int) : Bool :=
  match c with
  | some q => decide (q ≤ 0)
  | none => false

/-- sortAscending: a.triggerPoint - b.triggerPoint. -/
def sortAscendingC (heap : Nat → MarkObj) (a b : Nat) : Option Int :=
  jsSubN (heap a).triggerPoint (heap b).triggerPoint

/-- sortDescending: b.triggerPoint - a.triggerPoint. -/
def sortDescendingC (heap : Nat → MarkObj) (a b : Nat) : Option Int :=
  jsSubN (heap b).triggerPoint (heap a).triggerPoint

/-- The before-relation of the queue sort:
queue.sort(scrollDirection === "down" ? sortAscending : sortDescending). -/
def sortRel (heap : Nat → MarkObj) (sd : Option Direction) (a b : Nat) : Bool :=
  if sd = some Direction.down then compLe (sortAscendingC heap a b)
  else compLe (sortDescendingC heap a b)

/-- Insert into a sorted list: the stable insertion step of the sort.
Array.prototype.sort with a consistent comparator yields a sorted stable
permutation; insertion sort realizes that specification. -/
def jsInsert (r : Nat → Nat → Bool) (a : Nat) : List Nat → List Nat
  | [] => [a]
  | b :: l => if r a b then a :: b :: l else b :: jsInsert r a l

/-- Insertion sort modelling Array.prototype.sort(comparator). -/
def jsSort (r : Nat → Nat → Bool) : List Nat → List Nat
  | [] => []
  | a :: l => jsInsert r a (jsSort r l)

/-- The function id of a mark callback (marks hold a function after
validation). -/
def cbId : JSVal → Nat
  | .fn id => id
  | _ => 0

/-- trigger(mark): read mark.once, invoke mark.callback(scrollDirection,
mark) — recorded as a callback event carrying the direction and the mark
address — then remove(mark.key) when once is truthy. -/
def trigger (env : Env) (a : Nat) (s : SMState) : SMState × List Event :=
  let m := s.heap a
  if truthy m.once then
    let r := removeOp env m.key s
    (r.1, Event.callback (cbId m.callback) s.scrollDirection a :: r.2.1)
  else (s, [Event.callback (cbId m.callback) s.scrollDirection a])

/-- queue.forEach(trigger), threading the state and concatenating traces. -/
def runQueue (env : Env) : List Nat → SMState → SMState × List Event
  | [], s => (s, [])
  | a :: rest, s =>
    let t := trigger env a s
    let r := runQueue env rest t.1
    (r.1, t.2 ++ r.2)

/-- triggerQueue(): sort the queue by the direction-dependent comparator,
fire each mark in order, and empty the queue. -/
def triggerQueue (env : Env) (q : List Nat) (s : SMState) : SMState × List Event :=
  runQueue env (jsSort (sortRel s.heap s.scrollDirection) q) s

/-- checkMarks(): read the current scroll offset, set scrollDirection,
build and dispatch the queue, then set previousScroll to the current
offset. The queue is built against the direction just written to
scrollDirection, so queueOf computes it from the same comparison. -/
def checkMarks (env : Env) (s : SMState) : SMState × List Event :=
  let currentScroll := env.pageYOffset
  let s0 := { s with scrollDirection := some (dirOf env s) }
  let r := triggerQueue env (queueOf env s) s0
  ({ r.1 with previousScroll := currentScroll }, r.2)

/-- A tick counter === its configured throttle (strict JS equality; a NaN
throttle never matches). -/
def jsEqNum (t : Int) (c : Option Int) : Bool :=
  match c with
  | some q => t == q
  | none => false

/-- The resize half of checkState: at the throttle threshold, a set resized
flag schedules the idle recompute and is cleared; otherwise the document
height is compared against previousHeight and a change schedules the
recompute and records the new height; the counter resets to 1 either way,
and increments below the threshold. -/
def resizeStep (env : Env) (s : SMState) : SMState × List Event :=
  if jsEqNum s.resizeTick s.config.resizeThrottle then
    if s.resized then
      ({ s with resized := false, resizeTick := 1 }, [Event.scheduleRecompute])
    else if s.previousHeight == env.scrollHeight then
      ({ s with resizeTick := 1 }, [])
    else
      ({ s with previousHeight := env.scrollHeight, resizeTick := 1 }, [Event.scheduleRecompute])
  else ({ s with resizeTick := s.resizeTick + 1 }, [])

/-- The scroll half of checkState: at the throttle threshold, a set
scrolled flag runs checkMarks and is cleared; the counter resets to 1
either way, and increments below the threshold. -/
def scrollStep (env : Env) (s : SMState) : SMState × List Event :=
  if jsEqNum s.scrollTick s.config.scrollThrottle then
    if s.scrolled then
      let r := checkMarks env s
      ({ r.1 with scrolled := false, scrollTick := 1 }, r.2)
    else ({ s with scrollTick := 1 }, [])
  else ({ s with scrollTick := s.scrollTick + 1 }, [])

/-- checkState(): reschedule the clock for the next frame, then the resize
check followed by the scroll check. -/
def checkState (env : Env) (s : SMState) : SMState × List Event :=
  let r1 := resizeStep env { s with clock := true }
  let r2 := scrollStep env r1.1
  (r2.1, r1.2 ++ r2.2)

/-- A sequence of clock ticks, each under its own environment snapshot. -/
def runTicks : List Env → SMState → SMState × List Event
  | [], s => (s, [])
  | e :: rest, s =>
    let r1 := checkState e s
    let r2 := runTicks rest r1.1
    (r2.1, r1.2 ++ r2.2)

/-- The configuration keys accepted by setOption. -/
def validKeys : List String := ["scrollThrottle", "resizeThrottle", "idleTimeout"]

/-- The lower bound of a config option: 0 for idleTimeout, 1 otherwise. -/
def lowerLimit (k : String) : Int :=
  if k == "idleTimeout" then 0 else 1

/-- value < lowerLimit as JS evaluates it: false for NaN. -/
def jsLtLimit (v : JSVal) (limit : Int) : Bool :=
  match v with
  | .num q => decide (q < limit)
  | _ => false

/-- Store a validated number (possibly NaN) into the config field named by
the key. -/
def setCfgField (c : Config) (k : String) (v : Option Int) : Config :=
  if k == "scrollThrottle" then { c with scrollThrottle := v }
  else if k == "resizeThrottle" then { c with resizeThrottle := v }
  else { c with idleTimeout := v }

/-- The numeric content of a validated config value; NaN stores as none. -/
def toJSNum : JSVal → Option Int
  | .num q => some q
  | _ => none

/-- setOption(key, value): unknown key is a ReferenceError, a non-number a
TypeError, a number below the lower limit a RangeError; otherwise the
option is stored. -/
def setOption (k : String) (v : JSVal) (s : SMState) : Except JSErr SMState :=
  if !(validKeys.contains k) then .error (.refErr k)
  else if !isNumberJS v then .error (.typeErr "Config" k "a number" v)
  else if jsLtLimit v (lowerLimit k) then .error (.rangeErr k (lowerLimit k) v)
  else .ok { s with config := setCfgField s.config k (toJSNum v) }

/-- Object.keys(params).forEach(setOption): a throw aborts the iteration,
keeping the options already stored; the error carries that state. -/
def setOptions (ps : List (String × JSVal)) (s : SMState) : Except (JSErr × SMState) SMState :=
  match ps with
  | [] => .ok s
  | (k, v) :: rest =>
    match setOption k v s with
    | .error e => .error (e, s)
    | .ok s1 => setOptions rest s1

/-- getSetConfig(params): without arguments a getter (returns the current
config, no state change); with a params object, every entry goes through
setOption and a running clock gets its tick counters reset afterwards. -/
def getSetConfigState (params : Option (List (String × JSVal))) (s : SMState) :
    Except (JSErr × SMState) SMState :=
  match params with
  | none => .ok s
  | some ps =>
    match setOptions ps s with
    | .error es => .error es
    | .ok s1 => .ok (if s1.clock then { s1 with scrollTick := 1, resizeTick := 1 } else s1)

/-- The mark addresses currently registered. -/
def addrsOf (s : SMState) : List Nat :=
  s.scrollMarks.map Prod.snd

/-- Every registry entry maps its key to a mark whose key field agrees —
established by add, which writes mark.key before storing. -/
abbrev keyConsistent (s : SMState) : Prop :=
  ∀ p ∈ s.scrollMarks, (s.heap p.2).key = p.1

/-- Registry well-formedness: keys unique (Map semantics with a fresh key
per add), addresses unique (each mark object registered once), and key
fields consistent. -/
abbrev WF (s : SMState) : Prop :=
  (s.scrollMarks.map Prod.fst).Nodup ∧ (s.scrollMarks.map Prod.snd).Nodup ∧ keyConsistent s

/-- All registered marks have numeric (non-NaN) trigger points, as computed
from numeric offsets. -/
abbrev numericTPs (s : SMState) : Prop :=
  ∀ p ∈ s.scrollMarks, (s.heap p.2).triggerPoint ≠ none

/-- The events one dispatched mark produces: its callback invocation, then,
when once is truthy, the removal of its key. -/
def perMarkEvents (heap : Nat → MarkObj) (sd : Option Direction) (a : Nat) : List Event :=
  Event.callback (cbId (heap a).callback) sd a ::
    (if truthy (heap a).once then [Event.removeMark (heap a).key] else [])

/-- Concatenation of per-mark event lists over a queue. -/
def catMapEv (f : Nat → List Event) : List Nat → List Event
  | [] => []
  | a :: l => f a ++ catMapEv f l

/-- The order in which checkMarks dispatches the queued marks: the queue
sorted by the direction-dependent comparator. -/
def dispatchOrder (env : Env) (s : SMState) : List Nat :=
  jsSort (sortRel s.heap (some (dirOf env s))) (queueOf env s)

/-- The callback-invocation events of a trace, in order. -/
def callbackEvents : List Event → List Event
  | [] => []
  | e :: l =>
    match e with
    | .callback cb dir addr => Event.callback cb dir addr :: callbackEvents l
    | _ => callbackEvents l

/-- Whether an event is a callback invocation passing the given mark
address. -/
def isCallbackOf (a : Nat) : Event → Bool
  | .callback _ _ b => b == a
  | _ => false

/-- The trigger point of a registered mark as a plain integer (0 only for
the NaN case excluded by numericTPs). -/
def tpD (s : SMState) (a : Nat) : Int :=
  ((s.heap a).triggerPoint).getD 0

/-- Whether an offset passes validation and its computed offset evaluates to
a number in the given environment, so that calculateTriggerPoint succeeds. -/
def offsetCalcNumeric (env : Env) (off el : JSVal) : Bool :=
  match offsetToComputed off with
  | .ok co => isNumberJS (evalCOff env co el)
  | .error _ => false

/-- The default configuration of the module. -/
def cfgDefault : Config :=
  { scrollThrottle := some 10, resizeThrottle := some 30, idleTimeout := some 100 }

/-- A browser environment snapshot used by the concrete scenarios: scroll
offset 10, viewport height 600, document height 2000, everything visible. -/
def envBase : Env :=
  { pageYOffset := 10, innerHeight := 600, scrollHeight := 2000,
    elemVisible := fun _ => true, elemTop := fun _ => 0, fnApp := fun _ _ => .undef }

/-- A baseline module state: empty registry, stopped clock, defaults. -/
def stBase : SMState :=
  { scrollMarks := [], heap := fun _ => mark0, index := 0, config := cfgDefault,
    clock := false, scrolled := false, scrollTick := 1, previousScroll := 0,
    scrollDirection := none, resized := false, resizeTick := 1, previousHeight := 2000 }

/-- A registered mark fixture: a visible element, callback 5, the given
trigger point, once flag and key. -/
def markFix (tp : Int) (oncev : JSVal) (key : Nat) : MarkObj :=
  { mark0 with
    element := .elem 1, callback := .fn 5, triggerPoint := some tp,
    once := oncev, key := key }

/-- Heap for the crossing scenario: a non-once mark with trigger point 5 at
address 7. -/
def heapC1 : Nat → MarkObj :=
  fun n => if n == 7 then markFix 5 (.boolV false) 0 else mark0

/-- State for the crossing scenario: one registered mark, previous scroll
offset 0, clock running, scrolled flag set. -/
def stC1 : SMState :=
  { stBase with
    scrollMarks := [(0, 7)], heap := heapC1, index := 1,
    clock := true, scrolled := true }

/-- Heap with two non-once marks: trigger points 5 (address 3) and 2
(address 4). -/
def heapTwo : Nat → MarkObj :=
  fun n => if n == 3 then markFix 5 (.boolV false) 0
    else if n == 4 then markFix 2 (.boolV false) 1
    else mark0

/-- State with the two marks of heapTwo registered in key order. -/
def stTwo : SMState :=
  { stBase with
    scrollMarks := [(0, 3), (1, 4)], heap := heapTwo, index := 2,
    clock := true, scrolled := true }

/-- Heap where the mark at address 3 (trigger point 5) is once=true and the
mark at address 4 (trigger point 2) is not. -/
def heapOnce : Nat → MarkObj :=
  fun n => if n == 3 then markFix 5 (.boolV true) 0
    else if n == 4 then markFix 2 (.boolV false) 1
    else mark0

/-- State with the once-mark and the plain mark of heapOnce registered. -/
def stOnce : SMState :=
  { stBase with
    scrollMarks := [(0, 3), (1, 4)], heap := heapOnce, index := 2,
    clock := true, scrolled := true }

/-- State with a single registered mark and a running clock. -/
def stOneMark : SMState :=
  { stBase with scrollMarks := [(0, 3)], heap := heapOnce, index := 1, clock := true }

/-- State whose previous scroll offset equals the current one of envBase,
with a remembered downward direction. -/
def stEqDir : SMState :=
  { stBase with previousScroll := 10, scrollDirection := some .down, clock := true }

/-- State at the resize threshold with the resized flag set and a stale
previous height. -/
def stRszFlag : SMState :=
  { stBase with resizeTick := 30, resized := true, previousHeight := 100, clock := true }

/-- Same as stRszFlag but with the resized flag clear. -/
def stRszClear : SMState :=
  { stBase with resizeTick := 30, resized := false, previousHeight := 100, clock := true }

/-- Heap holding a fresh mark object (address 9) whose offset is a boolean,
which no validation case accepts. -/
def heapBadOffset : Nat → MarkObj :=
  fun n => if n == 9 then { mark0 with element := .elem 2, callback := .fn 7, offset := .boolV true }
    else mark0

/-- State about to add the invalid-offset mark. -/
def stAdd8 : SMState :=
  { stBase with heap := heapBadOffset, index := 4 }

/-- Heap holding a fresh valid mark object (address 9) with numeric offset. -/
def heapGoodOffset : Nat → MarkObj :=
  fun n => if n == 9 then { mark0 with element := .elem 2, callback := .fn 7, offset := .num 20 }
    else mark0

/-- Empty stopped state about to add the valid mark at address 9. -/
def stAddOK : SMState :=
  { stBase with heap := heapGoodOffset }

theorem mem_jsInsert {r : Nat → Nat → Bool} {a b : Nat} {l : List Nat} :
    b ∈ jsInsert r a l ↔ b = a ∨ b ∈ l := by
  induction l with
  | nil => simp [jsInsert]
  | cons c l ih =>
    simp only [jsInsert]
    split
    · simp [List.mem_cons]
    · simp only [List.mem_cons, ih]
      tauto

theorem jsInsert_perm (r : Nat → Nat → Bool) (a : Nat) (l : List Nat) :
    List.Perm (jsInsert r a l) (a :: l) := by
  induction l with
  | nil => exact List.Perm.refl _
  | cons b l ih =>
    simp only [jsInsert]
    split
    · exact List.Perm.refl _
    · exact (ih.cons b).trans (List.Perm.swap a b l)

theorem jsSort_perm (r : Nat → Nat → Bool) (l : List Nat) :
    List.Perm (jsSort r l) l := by
  induction l with
  | nil => exact List.Perm.refl _
  | cons a l ih =>
    exact (jsInsert_perm r a (jsSort r l)).trans (ih.cons a)

theorem pairwise_jsInsert {r : Nat → Nat → Bool} {P : Nat → Prop}
    (total : ∀ x y, P x → P y → r x y = true ∨ r y x = true)
    (htrans : ∀ x y z, P x → P y → P z → r x y = true → r y z = true → r x z = true)
    {a : Nat} {l : List Nat} (hPa : P a) (hPl : ∀ x ∈ l, P x)
    (hl : List.Pairwise (fun x y => r x y = true) l) :
    List.Pairwise (fun x y => r x y = true) (jsInsert r a l) := by
  induction l with
  | nil => simp [jsInsert]
  | cons b l ih =>
    have hPb : P b := hPl b (by simp)
    have hPl2 : ∀ x ∈ l, P x := fun x hx => hPl x (by simp [hx])
    rcases List.pairwise_cons.mp hl with ⟨hb, hlp⟩
    simp only [jsInsert]
    split
    · rename_i hab
      refine List.pairwise_cons.mpr ⟨?_, hl⟩
      intro x hx
      rcases List.mem_cons.mp hx with rfl | hx
      · exact hab
      · exact htrans a b x hPa hPb (hPl2 x hx) hab (hb x hx)
    · rename_i hab
      refine List.pairwise_cons.mpr ⟨?_, ih hPl2 hlp⟩
      intro x hx
      rcases mem_jsInsert.mp hx with rfl | hx
      · rcases total x b hPa hPb with h | h
        · exact absurd h hab
        · exact h
      · exact hb x hx

theorem pairwise_jsSort {r : Nat → Nat → Bool} {P : Nat → Prop}
    (total : ∀ x y, P x → P y → r x y = true ∨ r y x = true)
    (htrans : ∀ x y z, P x → P y → P z → r x y = true → r y z = true → r x z = true)
    {l : List Nat} (hPl : ∀ x ∈ l, P x) :
    List.Pairwise (fun x y => r x y = true) (jsSort r l) := by
  induction l with
  | nil => simp [jsSort]
  | cons a l ih =>
    have hPa : P a := hPl a (by simp)
    have hPl2 : ∀ x ∈ l, P x := fun x hx => hPl x (by simp [hx])
    have hmem : ∀ x ∈ jsSort r l, P x :=
      fun x hx => hPl2 x ((jsSort_perm r l).mem_iff.mp hx)
    exact pairwise_jsInsert total htrans hPa hmem (ih hPl2)

theorem stop_inv (env : Env) (s : SMState) :
    (stop env s).heap = s.heap ∧ (stop env s).scrollDirection = s.scrollDirection ∧
    (stop env s).scrollMarks = s.scrollMarks := by
  unfold stop setInitialState
  split <;> exact ⟨rfl, rfl, rfl⟩

theorem removeOp_inv (env : Env) (k : Nat) (s : SMState) :
    (removeOp env k s).1.heap = s.heap ∧
    (removeOp env k s).1.scrollDirection = s.scrollDirection := by
  unfold removeOp
  dsimp only
  split
  · exact ⟨(stop_inv env _).1, (stop_inv env _).2.1⟩
  · exact ⟨rfl, rfl⟩

theorem removeOp_events (env : Env) (k : Nat) (s : SMState) :
    (removeOp env k s).2.1 = [Event.removeMark k] := rfl

theorem removeOp_sub (env : Env) (k : Nat) (s : SMState) :
    ∀ p ∈ (removeOp env k s).1.scrollMarks, p ∈ s.scrollMarks := by
  intro p hp
  unfold removeOp at hp
  dsimp only at hp
  have hp2 : p ∈ mapDelete s.scrollMarks k := by
    revert hp
    split
    · rename_i h
      rw [(stop_inv env _).2.2]
      exact id
    · exact id
  exact List.mem_of_mem_filter hp2

theorem trigger_spec (env : Env) (a : Nat) (s : SMState) :
    (trigger env a s).1.heap = s.heap ∧
    (trigger env a s).1.scrollDirection = s.scrollDirection ∧
    (trigger env a s).2 = perMarkEvents s.heap s.scrollDirection a := by
  unfold trigger perMarkEvents
  dsimp only
  split
  · exact ⟨(removeOp_inv env _ s).1, (removeOp_inv env _ s).2, rfl⟩
  · exact ⟨rfl, rfl, rfl⟩

theorem trigger_sub (env : Env) (a : Nat) (s : SMState) :
    ∀ p ∈ (trigger env a s).1.scrollMarks, p ∈ s.scrollMarks := by
  intro p hp
  unfold trigger at hp
  dsimp only at hp
  revert hp
  split
  · exact removeOp_sub env _ s p
  · exact id

theorem runQueue_spec (env : Env) :
    ∀ (q : List Nat) (s : SMState),
    (runQueue env q s).1.heap = s.heap ∧
    (runQueue env q s).1.scrollDirection = s.scrollDirection ∧
    (runQueue env q s).2 = catMapEv (perMarkEvents s.heap s.scrollDirection) q := by
  intro q
  induction q with
  | nil => exact fun s => ⟨rfl, rfl, rfl⟩
  | cons a rest ih =>
    intro s
    have ht := trigger_spec env a s
    have hr := ih (trigger env a s).1
    refine ⟨?_, ?_, ?_⟩
    · show (runQueue env rest (trigger env a s).1).1.heap = s.heap
      rw [hr.1, ht.1]
    · show (runQueue env rest (trigger env a s).1).1.scrollDirection = s.scrollDirection
      rw [hr.2.1, ht.2.1]
    · show (trigger env a s).2 ++ (runQueue env rest (trigger env a s).1).2 = _
      rw [ht.2.2, hr.2.2, ht.1, ht.2.1]
      rfl

theorem runQueue_sub (env : Env) :
    ∀ (q : List Nat) (s : SMState),
    ∀ p ∈ (runQueue env q s).1.scrollMarks, p ∈ s.scrollMarks := by
  intro q
  induction q with
  | nil => exact fun s p hp => hp
  | cons a rest ih =>
    intro s p hp
    exact trigger_sub env a s p (ih (trigger env a s).1 p hp)

theorem mapHas_eq_false {l : List (Nat × Nat)} {k : Nat} :
    mapHas l k = false ↔ ∀ p ∈ l, p.1 ≠ k := by
  simp [mapHas]

theorem removeOp_keyGone (env : Env) (k : Nat) (s : SMState) :
    mapHas (removeOp env k s).1.scrollMarks k = false := by
  rw [mapHas_eq_false]
  intro p hp
  have hp2 : p ∈ mapDelete s.scrollMarks k := by
    revert hp
    unfold removeOp
    dsimp only
    split
    · rw [(stop_inv env _).2.2]
      exact id
    · exact id
  have := List.of_mem_filter hp2
  simpa using this

theorem runQueue_has_mono (env : Env) :
    ∀ (q : List Nat) (s : SMState) (k : Nat),
    mapHas (runQueue env q s).1.scrollMarks k = true → mapHas s.scrollMarks k = true := by
  intro q s k h
  simp only [mapHas, List.any_eq_true] at h ⊢
  rcases h with ⟨p, hp, he⟩
  exact ⟨p, runQueue_sub env q s p hp, he⟩

theorem runQueue_keyGone (env : Env) :
    ∀ (q : List Nat) (s : SMState) (a : Nat),
    a ∈ q → truthy (s.heap a).once = true →
    mapHas (runQueue env q s).1.scrollMarks ((s.heap a).key) = false := by
  intro q
  induction q with
  | nil => intro s a h; simp at h
  | cons b rest ih =>
    intro s a ha ho
    rcases List.mem_cons.mp ha with rfl | ha
    · -- the head is the once-mark: trigger removes its key, later steps only delete
      have ht : (trigger env a s).1 = (removeOp env ((s.heap a).key) s).1 := by
        unfold trigger
        dsimp only
        rw [if_pos ho]
      show mapHas (runQueue env rest (trigger env a s).1).1.scrollMarks ((s.heap a).key) = false
      rcases hhh : mapHas (runQueue env rest (trigger env a s).1).1.scrollMarks ((s.heap a).key) with _ | _
      · rfl
      · exfalso
        have h2 := runQueue_has_mono env rest (trigger env a s).1 ((s.heap a).key) hhh
        rw [ht] at h2
        rw [removeOp_keyGone env ((s.heap a).key) s] at h2
        exact Bool.false_ne_true h2
    · have hh := (trigger_spec env b s).1
      have := ih (trigger env b s).1 a ha (by rw [hh]; exact ho)
      rw [hh] at this
      exact this

theorem keyConsistent_of_sub {s t : SMState}
    (hsub : ∀ p ∈ t.scrollMarks, p ∈ s.scrollMarks) (hh : t.heap = s.heap)
    (hkc : keyConsistent s) : keyConsistent t := by
  intro p hp
  rw [hh]
  exact hkc p (hsub p hp)

theorem removeOp_addrGone (env : Env) {s : SMState} {a : Nat}
    (hkc : keyConsistent s) :
    a ∉ addrsOf (removeOp env ((s.heap a).key) s).1 := by
  intro hmem
  unfold addrsOf at hmem
  rcases List.mem_map.mp hmem with ⟨p, hp, hpa⟩
  have hp2 : p ∈ mapDelete s.scrollMarks ((s.heap a).key) := by
    revert hp
    unfold removeOp
    dsimp only
    split
    · rw [(stop_inv env _).2.2]
      exact id
    · exact id
  have hne := List.of_mem_filter hp2
  have hmem2 := List.mem_of_mem_filter hp2
  have := hkc p hmem2
  rw [hpa] at this
  simp only [bne_iff_ne, ne_eq] at hne
  exact hne (this.symm ▸ rfl)

theorem runQueue_addr_mono (env : Env) :
    ∀ (q : List Nat) (s : SMState) (a : Nat),
    a ∈ addrsOf (runQueue env q s).1 → a ∈ addrsOf s := by
  intro q s a h
  unfold addrsOf at h ⊢
  rcases List.mem_map.mp h with ⟨p, hp, hpa⟩
  exact List.mem_map.mpr ⟨p, runQueue_sub env q s p hp, hpa⟩

theorem trigger_addr_mono (env : Env) (b : Nat) (s : SMState) {a : Nat} :
    a ∈ addrsOf (trigger env b s).1 → a ∈ addrsOf s := by
  intro h
  unfold addrsOf at h ⊢
  rcases List.mem_map.mp h with ⟨p, hp, hpa⟩
  exact List.mem_map.mpr ⟨p, trigger_sub env b s p hp, hpa⟩

theorem runQueue_addrGone (env : Env) :
    ∀ (q : List Nat) (s : SMState) (a : Nat),
    keyConsistent s → a ∈ q → truthy (s.heap a).once = true →
    a ∉ addrsOf (runQueue env q s).1 := by
  intro q
  induction q with
  | nil => intro s a _ h; simp at h
  | cons b rest ih =>
    intro s a hkc ha ho
    rcases List.mem_cons.mp ha with rfl | ha
    · have ht : (trigger env a s).1 = (removeOp env ((s.heap a).key) s).1 := by
        unfold trigger
        dsimp only
        rw [if_pos ho]
      intro hmem
      have h2 := runQueue_addr_mono env rest (trigger env a s).1 a hmem
      rw [ht] at h2
      exact removeOp_addrGone env hkc h2
    · have hh := (trigger_spec env b s).1
      have hkc2 : keyConsistent (trigger env b s).1 :=
        keyConsistent_of_sub (trigger_sub env b s) hh hkc
      have := ih (trigger env b s).1 a hkc2 ha (by rw [hh]; exact ho)
      show a ∉ addrsOf (runQueue env rest (trigger env b s).1).1
      exact this

theorem mem_catMapEv {f : Nat → List Event} {l : List Nat} {e : Event} :
    e ∈ catMapEv f l ↔ ∃ a ∈ l, e ∈ f a := by
  induction l with
  | nil => simp [catMapEv]
  | cons a l ih =>
    simp only [catMapEv, List.mem_append, ih, List.mem_cons]
    constructor
    · rintro (h | ⟨b, hb, he⟩)
      · exact ⟨a, Or.inl rfl, h⟩
      · exact ⟨b, Or.inr hb, he⟩
    · rintro ⟨b, rfl | hb, he⟩
      · exact Or.inl he
      · exact Or.inr ⟨b, hb, he⟩

theorem count_catMapEv (e : Event) (f : Nat → List Event) :
    ∀ l : List Nat, (catMapEv f l).count e = (l.map (fun a => (f a).count e)).sum := by
  intro l
  induction l with
  | nil => rfl
  | cons a l ih =>
    simp only [catMapEv, List.count_append, List.map_cons, List.sum_cons, ih]

theorem callbackEvents_append (l1 l2 : List Event) :
    callbackEvents (l1 ++ l2) = callbackEvents l1 ++ callbackEvents l2 := by
  induction l1 with
  | nil => rfl
  | cons e l ih => cases e <;> simp [callbackEvents, ih]

theorem callbackEvents_catMapEv (heap : Nat → MarkObj) (sd : Option Direction) :
    ∀ l : List Nat,
    callbackEvents (catMapEv (perMarkEvents heap sd) l) =
      l.map (fun a => Event.callback (cbId (heap a).callback) sd a) := by
  intro l
  induction l with
  | nil => rfl
  | cons a l ih =>
    show callbackEvents (perMarkEvents heap sd a ++ catMapEv (perMarkEvents heap sd) l) = _
    rw [callbackEvents_append, ih]
    have hone : callbackEvents (perMarkEvents heap sd a) =
        [Event.callback (cbId (heap a).callback) sd a] := by
      unfold perMarkEvents
      split <;> rfl
    rw [hone]
    rfl

theorem count_removeMark_perMark (heap : Nat → MarkObj) (sd : Option Direction)
    (a : Nat) (k : Nat) :
    (perMarkEvents heap sd a).count (Event.removeMark k) =
      (if truthy (heap a).once = true ∧ (heap a).key = k then 1 else 0) := by
  unfold perMarkEvents
  rcases h : truthy (heap a).once with _ | _
  · simp [h, List.count_cons, List.count_nil]
  · rcases hk : decide ((heap a).key = k) with _ | _
    · have : (heap a).key ≠ k := of_decide_eq_false hk
      simp [h, List.count_cons, List.count_nil, this, Event.removeMark.injEq]
    · have : (heap a).key = k := of_decide_eq_true hk
      simp [h, List.count_cons, List.count_nil, this]

theorem checkMarks_events (env : Env) (s : SMState) :
    (checkMarks env s).2 =
      catMapEv (perMarkEvents s.heap (some (dirOf env s))) (dispatchOrder env s) := by
  unfold checkMarks triggerQueue dispatchOrder
  dsimp only
  exact (runQueue_spec env _ _).2.2

theorem checkMarks_sd (env : Env) (s : SMState) :
    (checkMarks env s).1.scrollDirection = some (dirOf env s) := by
  unfold checkMarks triggerQueue
  dsimp only
  exact (runQueue_spec env _ _).2.1

theorem checkMarks_heap (env : Env) (s : SMState) :
    (checkMarks env s).1.heap = s.heap := by
  unfold checkMarks triggerQueue
  dsimp only
  exact (runQueue_spec env _ _).1

theorem checkMarks_sub (env : Env) (s : SMState) :
    ∀ p ∈ (checkMarks env s).1.scrollMarks, p ∈ s.scrollMarks := by
  intro p hp
  unfold checkMarks triggerQueue at hp
  dsimp only at hp
  have := runQueue_sub env _ _ p hp
  exact this

theorem queueOf_sub (env : Env) (s : SMState) :
    ∀ a ∈ queueOf env s, a ∈ addrsOf s := by
  intro a ha
  unfold queueOf at ha
  unfold addrsOf
  rcases List.mem_map.mp ha with ⟨p, hp, hpa⟩
  exact List.mem_map.mpr ⟨p, List.mem_of_mem_filter hp, hpa⟩

theorem queueOf_nodup (env : Env) {s : SMState} (h : (addrsOf s).Nodup) :
    (queueOf env s).Nodup := by
  unfold queueOf
  unfold addrsOf at h
  exact ((List.filter_sublist s.scrollMarks).map Prod.snd).nodup h

theorem dispatchOrder_perm (env : Env) (s : SMState) :
    List.Perm (dispatchOrder env s) (queueOf env s) :=
  jsSort_perm _ _

theorem checkMarks_prevScroll (env : Env) (s : SMState) :
    (checkMarks env s).1.previousScroll = env.pageYOffset := rfl

theorem checkMarks_addr_mono (env : Env) (s : SMState) {a : Nat} :
    a ∈ addrsOf (checkMarks env s).1 → a ∈ addrsOf s := by
  intro hmem
  unfold addrsOf at hmem ⊢
  rcases List.mem_map.mp hmem with ⟨p, hp, hpa⟩
  exact List.mem_map.mpr ⟨p, checkMarks_sub env s p hp, hpa⟩

theorem no_fire_checkMarks (env : Env) {s : SMState} {a : Nat} (h : a ∉ addrsOf s) :
    (∀ e ∈ (checkMarks env s).2, isCallbackOf a e = false) ∧
    a ∉ addrsOf (checkMarks env s).1 := by
  constructor
  · intro e he
    rw [checkMarks_events] at he
    rcases mem_catMapEv.mp he with ⟨b, hb, hev⟩
    have hbq : b ∈ queueOf env s := (dispatchOrder_perm env s).mem_iff.mp hb
    have hba : b ∈ addrsOf s := queueOf_sub env s b hbq
    unfold perMarkEvents at hev
    rcases List.mem_cons.mp hev with rfl | hev2
    · simp only [isCallbackOf, beq_eq_false_iff_ne, ne_eq]
      rintro rfl
      exact h hba
    · revert hev2
      split
      · intro hev2
        rcases List.mem_singleton.mp hev2 with rfl
        rfl
      · intro hev2
        simp at hev2
  · intro hmem
    exact h (checkMarks_addr_mono env s hmem)

theorem resizeStep_registry (env : Env) (s : SMState) :
    (resizeStep env s).1.scrollMarks = s.scrollMarks := by
  unfold resizeStep
  split
  · split
    · rfl
    · split <;> rfl
  · rfl

theorem resizeStep_no_cb (env : Env) (s : SMState) (a : Nat) :
    ∀ e ∈ (resizeStep env s).2, isCallbackOf a e = false := by
  intro e he
  revert he
  unfold resizeStep
  split
  · split
    · intro he
      rcases List.mem_singleton.mp he with rfl
      rfl
    · split
      · intro he
        simp at he
      · intro he
        rcases List.mem_singleton.mp he with rfl
        rfl
  · intro he
    simp at he

theorem scrollStep_no_fire (env : Env) {s : SMState} {a : Nat} (h : a ∉ addrsOf s) :
    (∀ e ∈ (scrollStep env s).2, isCallbackOf a e = false) ∧
    a ∉ addrsOf (scrollStep env s).1 := by
  unfold scrollStep
  split
  · split
    · exact ⟨(no_fire_checkMarks env h).1, (no_fire_checkMarks env h).2⟩
    · refine ⟨?_, h⟩
      intro e he
      simp at he
  · refine ⟨?_, h⟩
    intro e he
    simp at he

theorem checkState_no_fire (env : Env) {s : SMState} {a : Nat} (h : a ∉ addrsOf s) :
    (∀ e ∈ (checkState env s).2, isCallbackOf a e = false) ∧
    a ∉ addrsOf (checkState env s).1 := by
  unfold checkState
  dsimp only
  have h1 : a ∉ addrsOf (resizeStep env { s with clock := true }).1 := by
    unfold addrsOf
    rw [resizeStep_registry]
    exact h
  have h2 := scrollStep_no_fire env h1
  constructor
  · intro e he
    rcases List.mem_append.mp he with he1 | he2
    · exact resizeStep_no_cb env _ a e he1
    · exact h2.1 e he2
  · exact h2.2

theorem runTicks_no_fire :
    ∀ (envs : List Env) {s : SMState} {a : Nat}, a ∉ addrsOf s →
    (∀ e ∈ (runTicks envs s).2, isCallbackOf a e = false) ∧
    a ∉ addrsOf (runTicks envs s).1 := by
  intro envs
  induction envs with
  | nil =>
    intro s a h
    refine ⟨?_, h⟩
    intro e he
    simp [runTicks] at he
  | cons env rest ih =>
    intro s a h
    have h1 := checkState_no_fire env h
    have h2 := ih h1.2
    constructor
    · intro e he
      rcases List.mem_append.mp he with he1 | he2
      · exact h1.1 e he1
      · exact h2.1 e he2
    · exact h2.2

theorem catMapEv_append (f : Nat → List Event) (l1 l2 : List Nat) :
    catMapEv f (l1 ++ l2) = catMapEv f l1 ++ catMapEv f l2 := by
  induction l1 with
  | nil => rfl
  | cons a l ih =>
    show f a ++ catMapEv f (l ++ l2) = (f a ++ catMapEv f l) ++ catMapEv f l2
    rw [ih, List.append_assoc]

theorem catMapEv_split (f : Nat → List Event) {l : List Nat} {a : Nat} (h : a ∈ l) :
    ∃ l1 l2, l = l1 ++ a :: l2 ∧
      catMapEv f l = catMapEv f l1 ++ f a ++ catMapEv f l2 := by
  rcases List.append_of_mem h with ⟨l1, l2, rfl⟩
  refine ⟨l1, l2, rfl, ?_⟩
  rw [catMapEv_append, List.append_assoc]
  rfl

theorem count_rm_zero (heap : Nat → MarkObj) (sd : Option Direction) (k : Nat) :
    ∀ l : List Nat,
    (∀ b ∈ l, ¬(truthy (heap b).once = true ∧ (heap b).key = k)) →
    (catMapEv (perMarkEvents heap sd) l).count (Event.removeMark k) = 0 := by
  intro l
  induction l with
  | nil => intro _; rfl
  | cons b l ih =>
    intro hb
    show ((perMarkEvents heap sd b) ++ _).count _ = 0
    rw [List.count_append, count_removeMark_perMark,
      if_neg (hb b (List.mem_cons_self b l)), ih (fun c hc => hb c (List.mem_cons_of_mem b hc))]

theorem count_rm_one (heap : Nat → MarkObj) (sd : Option Direction) (k : Nat) :
    ∀ (l : List Nat) (a : Nat), a ∈ l →
    truthy (heap a).once = true → (heap a).key = k →
    (∀ b ∈ l, truthy (heap b).once = true → (heap b).key = k → b = a) →
    l.Nodup →
    (catMapEv (perMarkEvents heap sd) l).count (Event.removeMark k) = 1 := by
  intro l
  induction l with
  | nil => intro a h; simp at h
  | cons b l ih =>
    intro a ha ho hk huniq hnd
    rcases List.nodup_cons.mp hnd with ⟨hbl, hndl⟩
    rcases List.mem_cons.mp ha with rfl | ha
    · show ((perMarkEvents heap sd a) ++ _).count _ = 1
      rw [List.count_append, count_removeMark_perMark, if_pos ⟨ho, hk⟩,
        count_rm_zero heap sd k l ?_]
      intro c hc hck
      have := huniq c (List.mem_cons_of_mem a hc) hck.1 hck.2
      subst this
      exact hbl hc
    · show ((perMarkEvents heap sd b) ++ _).count _ = 1
      rw [List.count_append, count_removeMark_perMark, if_neg ?_,
        ih a ha ho hk (fun c hc => huniq c (List.mem_cons_of_mem b hc)) hndl]
      rintro ⟨hbo, hbk⟩
      have := huniq b (List.mem_cons_self b l) hbo hbk
      subst this
      exact hbl ha

theorem sortRel_total (heap : Nat → MarkObj) (sd : Option Direction) :
    ∀ x y, (heap x).triggerPoint ≠ none → (heap y).triggerPoint ≠ none →
    sortRel heap sd x y = true ∨ sortRel heap sd y x = true := by
  intro x y hx hy
  rcases hpx : (heap x).triggerPoint with _ | px
  · exact absurd hpx hx
  rcases hpy : (heap y).triggerPoint with _ | py
  · exact absurd hpy hy
  unfold sortRel sortAscendingC sortDescendingC jsSubN compLe
  rw [hpx, hpy]
  by_cases hsd : sd = some Direction.down
  · rw [if_pos hsd, if_pos hsd]
    simp only [decide_eq_true_eq]
    omega
  · rw [if_neg hsd, if_neg hsd]
    simp only [decide_eq_true_eq]
    omega

theorem sortRel_trans (heap : Nat → MarkObj) (sd : Option Direction) :
    ∀ x y z, (heap x).triggerPoint ≠ none → (heap y).triggerPoint ≠ none →
    (heap z).triggerPoint ≠ none →
    sortRel heap sd x y = true → sortRel heap sd y z = true → sortRel heap sd x z = true := by
  intro x y z hx hy hz h1 h2
  rcases hpx : (heap x).triggerPoint with _ | px
  · exact absurd hpx hx
  rcases hpy : (heap y).triggerPoint with _ | py
  · exact absurd hpy hy
  rcases hpz : (heap z).triggerPoint with _ | pz
  · exact absurd hpz hz
  unfold sortRel sortAscendingC sortDescendingC jsSubN compLe at h1 h2 ⊢
  rw [hpx, hpy] at h1
  rw [hpy, hpz] at h2
  rw [hpx, hpz]
  by_cases hsd : sd = some Direction.down
  · rw [if_pos hsd] at h1 h2 ⊢
    simp only [decide_eq_true_eq] at h1 h2 ⊢
    omega
  · rw [if_neg hsd] at h1 h2 ⊢
    simp only [decide_eq_true_eq] at h1 h2 ⊢
    omega

theorem sortRel_down_le (heap : Nat → MarkObj) {x y : Nat}
    (h : sortRel heap (some Direction.down) x y = true) :
    (heap x).triggerPoint.getD 0 ≤ (heap y).triggerPoint.getD 0 := by
  unfold sortRel sortAscendingC jsSubN compLe at h
  rw [if_pos rfl] at h
  rcases hpx : (heap x).triggerPoint with _ | px <;> rw [hpx] at h
  · simp at h
  · rcases hpy : (heap y).triggerPoint with _ | py <;> rw [hpy] at h
    · simp at h
    · simp only [decide_eq_true_eq] at h
      simp only [Option.getD_some]
      omega

theorem sortRel_up_le (heap : Nat → MarkObj) {x y : Nat}
    (h : sortRel heap (some Direction.up) x y = true) :
    (heap y).triggerPoint.getD 0 ≤ (heap x).triggerPoint.getD 0 := by
  unfold sortRel sortDescendingC jsSubN compLe at h
  rw [if_neg (by simp)] at h
  rcases hpy : (heap y).triggerPoint with _ | py <;> rw [hpy] at h
  · simp at h
  · rcases hpx : (heap x).triggerPoint with _ | px <;> rw [hpx] at h
    · simp at h
    · simp only [decide_eq_true_eq] at h
      simp only [Option.getD_some]
      omega

theorem start_proj (x : SMState) :
    (start x).index = x.index ∧ (start x).scrollMarks = x.scrollMarks ∧
    (start x).heap = x.heap := by
  unfold start
  split <;> exact ⟨rfl, rfl, rfl⟩

theorem mapSet_ne_nil (l : List (Nat × Nat)) (k v : Nat) :
    (mapSet l k v).isEmpty = false := by
  unfold mapSet
  split
  · rename_i h
    cases l with
    | nil => simp at h
    | cons p l => rfl
  · cases l <;> rfl

theorem start_noop (x : SMState) (h : x.clock = true) : start x = x := by
  unfold start
  rw [if_neg (by rw [h]; simp)]

theorem start_cases (s : SMState) : (start s).clock = true ∨ start s = s := by
  unfold start
  split
  · left
    rfl
  · right
    rfl

theorem start_idem (s : SMState) : start (start s) = start s := by
  rcases start_cases s with h | h
  · exact start_noop _ h
  · rw [h]
    exact h

theorem stop_clock_false (env : Env) (s : SMState) : (stop env s).clock = false := by
  unfold stop
  split
  · rfl
  · rename_i h
    simp at h
    exact h

theorem stop_idem (env : Env) (s : SMState) :
    stop env (stop env s) = stop env s := by
  show (if (stop env s).clock = true then setInitialState env (stop env s) else stop env s) =
    stop env s
  rw [if_neg (by rw [stop_clock_false]; simp)]

theorem checkMarks_fires (env : Env) (s : SMState) {a : Nat} (h : a ∈ queueOf env s) :
    Event.callback (cbId ((s.heap a).callback)) (some (dirOf env s)) a ∈ (checkMarks env s).2 := by
  rw [checkMarks_events]
  exact mem_catMapEv.mpr ⟨a, (dispatchOrder_perm env s).mem_iff.mpr h,
    List.mem_cons_self _ _⟩

theorem offsetToComputed_error {off : JSVal} {e : JSErr}
    (h : offsetToComputed off = .error e) :
    e = .typeErr "Optional" "offset" "a number, px, %, or a function" off := by
  unfold offsetToComputed at h
  split at h
  · simp at h
  · split at h
    · simp at h
    · split at h
      · split at h
        · simp at h
        · split at h
          · simp at h
          · exact (Except.error.inj h).symm
      · exact (Except.error.inj h).symm

theorem calculateTriggerPoint_ok_frame {env : Env} {a : Nat} {s s2 : SMState}
    (h : calculateTriggerPoint env a s = .ok s2) :
    s2.scrollMarks = s.scrollMarks ∧ s2.index = s.index ∧ s2.clock = s.clock ∧
    (∀ b, b ≠ a → s2.heap b = s.heap b) ∧
    (s2.heap a).element = (s.heap a).element ∧
    (s2.heap a).callback = (s.heap a).callback ∧
    (s2.heap a).offset = (s.heap a).offset ∧
    (s2.heap a).direction = (s.heap a).direction ∧
    (s2.heap a).once = (s.heap a).once ∧
    (s2.heap a).debug = (s.heap a).debug ∧
    (s2.heap a).computedOffset = (s.heap a).computedOffset ∧
    (s2.heap a).key = (s.heap a).key := by
  unfold calculateTriggerPoint at h
  dsimp only at h
  split at h
  · cases h
    refine ⟨rfl, rfl, rfl, fun b hb => ?_, ?_, ?_, ?_, ?_, ?_, ?_, ?_, ?_⟩
    · simp only [Function.update_noteq hb]
    all_goals simp only [Function.update_same]
    all_goals split <;> rfl
  · cases h
    refine ⟨rfl, rfl, rfl, fun b hb => ?_, ?_, ?_, ?_, ?_, ?_, ?_, ?_, ?_⟩
    · simp only [Function.update_noteq hb]
    all_goals simp only [Function.update_same]
    all_goals split <;> rfl
  · simp at h

theorem calculateTriggerPoint_numeric_ok (env : Env) (a : Nat) (s : SMState)
    (h : isNumberJS (evalCOff env (s.heap a).computedOffset (s.heap a).element) = true) :
    ∃ s2, calculateTriggerPoint env a s = .ok s2 := by
  unfold calculateTriggerPoint
  dsimp only
  cases hev : evalCOff env (s.heap a).computedOffset (s.heap a).element with
  | undef => rw [hev] at h; simp [isNumberJS] at h
  | nullV => rw [hev] at h; simp [isNumberJS] at h
  | boolV b => rw [hev] at h; simp [isNumberJS] at h
  | num q => exact ⟨_, rfl⟩
  | nan => exact ⟨_, rfl⟩
  | str t => rw [hev] at h; simp [isNumberJS] at h
  | fn f => rw [hev] at h; simp [isNumberJS] at h
  | elem el => rw [hev] at h; simp [isNumberJS] at h

theorem clockIf_proj (c : Bool) (x : SMState) :
    ((if (!c) = true then start x else x).index = x.index) ∧
    ((if (!c) = true then start x else x).scrollMarks = x.scrollMarks) ∧
    ((if (!c) = true then start x else x).heap = x.heap) := by
  split
  · exact start_proj x
  · exact ⟨rfl, rfl, rfl⟩

theorem clockIf_clock (c : Bool) (x : SMState) (hc : x.clock = c)
    (hne : x.scrollMarks.isEmpty = false) :
    (if (!c) = true then start x else x).clock = true := by
  split
  · rename_i h
    unfold start
    have hcc : (!x.clock && !x.scrollMarks.isEmpty) = true := by
      rw [hc, hne, Bool.and_eq_true]
      exact ⟨h, rfl⟩
    rw [if_pos hcc]
  · rename_i h
    rw [hc]
    simp at h
    exact h

theorem addOp_ok_shape {env : Env} {s : SMState} {a : Nat} {key : Nat} {sf : SMState}
    (h : addOp env s a = .ok (key, sf)) :
    key = s.index ∧ sf.index = s.index + 1 ∧ sf.clock = true ∧
    sf.scrollMarks = mapSet s.scrollMarks s.index a ∧
    (∀ b, b ≠ a → sf.heap b = s.heap b) ∧
    (sf.heap a).element = (s.heap a).element ∧
    (sf.heap a).callback = (s.heap a).callback ∧
    (sf.heap a).offset = (s.heap a).offset ∧
    (sf.heap a).direction = (s.heap a).direction ∧
    (sf.heap a).once = (s.heap a).once ∧
    (sf.heap a).debug = (s.heap a).debug ∧
    (sf.heap a).key = s.index := by
  unfold addOp at h
  dsimp only at h
  split at h
  · exact absurd h (by simp)
  split at h
  · exact absurd h (by simp)
  split at h
  · exact absurd h (by simp)
  · rename_i co heq
    split at h
    · exact absurd h (by simp)
    split at h
    · exact absurd h (by simp)
    split at h
    · exact absurd h (by simp)
    split at h
    · exact absurd h (by simp)
    · rename_i s2p hct
      have hfr := calculateTriggerPoint_ok_frame hct
      injection h with hpair
      rw [Prod.mk.injEq] at hpair
      obtain ⟨hkey, hsf⟩ := hpair
      subst hkey
      subst hsf
      refine ⟨?_, ?_, ?_, ?_, fun b hb => ?_, ?_, ?_, ?_, ?_, ?_, ?_, ?_⟩
      · exact hfr.2.1
      · rw [(clockIf_proj _ _).1]
        show s2p.index + 1 = s.index + 1
        rw [hfr.2.1]
      · refine clockIf_clock s2p.clock _ ?_ ?_
        · rfl
        · exact mapSet_ne_nil _ _ _
      · rw [(clockIf_proj _ _).2.1]
        show mapSet s2p.scrollMarks s2p.index a = mapSet s.scrollMarks s.index a
        rw [hfr.1, hfr.2.1]
      · rw [(clockIf_proj _ _).2.2]
        show Function.update s2p.heap a _ b = s.heap b
        rw [Function.update_noteq hb, hfr.2.2.2.1 b hb]
        show Function.update s.heap a _ b = s.heap b
        rw [Function.update_noteq hb]
      · rw [(clockIf_proj _ _).2.2]
        show (Function.update s2p.heap a _ a).element = (s.heap a).element
        rw [Function.update_same]
        show (s2p.heap a).element = (s.heap a).element
        rw [hfr.2.2.2.2.1]
        show (Function.update s.heap a _ a).element = (s.heap a).element
        rw [Function.update_same]
      · rw [(clockIf_proj _ _).2.2]
        show (Function.update s2p.heap a _ a).callback = (s.heap a).callback
        rw [Function.update_same]
        show (s2p.heap a).callback = (s.heap a).callback
        rw [hfr.2.2.2.2.2.1]
        show (Function.update s.heap a _ a).callback = (s.heap a).callback
        rw [Function.update_same]
      · rw [(clockIf_proj _ _).2.2]
        show (Function.update s2p.heap a _ a).offset = (s.heap a).offset
        rw [Function.update_same]
        show (s2p.heap a).offset = (s.heap a).offset
        rw [hfr.2.2.2.2.2.2.1]
        show (Function.update s.heap a _ a).offset = (s.heap a).offset
        rw [Function.update_same]
      · rw [(clockIf_proj _ _).2.2]
        show (Function.update s2p.heap a _ a).direction = (s.heap a).direction
        rw [Function.update_same]
        show (s2p.heap a).direction = (s.heap a).direction
        rw [hfr.2.2.2.2.2.2.2.1]
        show (Function.update s.heap a _ a).direction = (s.heap a).direction
        rw [Function.update_same]
      · rw [(clockIf_proj _ _).2.2]
        show (Function.update s2p.heap a _ a).once = (s.heap a).once
        rw [Function.update_same]
        show (s2p.heap a).once = (s.heap a).once
        rw [hfr.2.2.2.2.2.2.2.2.1]
        show (Function.update s.heap a _ a).once = (s.heap a).once
        rw [Function.update_same]
      · rw [(clockIf_proj _ _).2.2]
        show (Function.update s2p.heap a _ a).debug = (s.heap a).debug
        rw [Function.update_same]
        show (s2p.heap a).debug = (s.heap a).debug
        rw [hfr.2.2.2.2.2.2.2.2.2.1]
        show (Function.update s.heap a _ a).debug = (s.heap a).debug
        rw [Function.update_same]
      · rw [(clockIf_proj _ _).2.2]
        show (Function.update s2p.heap a _ a).key = s.index
        rw [Function.update_same]
        show s2p.index = s.index
        exact hfr.2.1

theorem addOp_succeeds (env : Env) (s : SMState) (a : Nat)
    (hel : isElemJS (s.heap a).element = true)
    (hcb : isFunctionJS (s.heap a).callback = true)
    (hdir : (isUndefinedJS (s.heap a).direction || (s.heap a).direction == JSVal.str "up" ||
      (s.heap a).direction == JSVal.str "down") = true)
    (honce : (isUndefinedJS (s.heap a).once || isBooleanJS (s.heap a).once) = true)
    (hdebug : (isUndefinedJS (s.heap a).debug || isBooleanJS (s.heap a).debug) = true)
    (hcalc : offsetCalcNumeric env (s.heap a).offset (s.heap a).element = true) :
    ∃ p, addOp env s a = .ok p := by
  unfold addOp
  dsimp only
  rw [hel, hcb]
  rcases hoc : offsetToComputed (s.heap a).offset with e | co
  · unfold offsetCalcNumeric at hcalc
    rw [hoc] at hcalc
    simp at hcalc
  · unfold offsetCalcNumeric at hcalc
    rw [hoc] at hcalc
    rw [hdir, honce, hdebug]
    simp only [Bool.not_true, Bool.false_eq_true, if_false]
    have hnum : isNumberJS (evalCOff env
        ((Function.update s.heap a { s.heap a with computedOffset := co } a).computedOffset)
        ((Function.update s.heap a { s.heap a with computedOffset := co } a).element)) = true := by
      rw [Function.update_same]
      exact hcalc
    obtain ⟨s2, hs2⟩ := calculateTriggerPoint_numeric_ok env a
      { s with heap := Function.update s.heap a { s.heap a with computedOffset := co } } hnum
    rw [hs2]
    exact ⟨_, rfl⟩

/-- C1, counterexample to the claim as stated: in a scroll check from
previous offset 0 to current offset 10, the registered, visible,
direction-matching mark with trigger point 5 IS queued by checkMarks, yet
the claimed condition (previous < triggerPoint) != (triggerPoint <=
current) is false there, since both comparisons are true. The code queues
on equality of the two comparisons, not on their inequality. -/
theorem c1_xor_counterexample :
    (7 ∈ queueOf envBase stC1) ∧
    elemVisibleV envBase (stC1.heap 7).element = true ∧
    directionMatches (stC1.heap 7).direction JSVal.undef (some (dirOf envBase stC1)) = true ∧
    (stC1.heap 7).triggerPoint = some 5 ∧
    stC1.previousScroll = 0 ∧ envBase.pageYOffset = 10 ∧
    (((0 : Int) < 5) ↔ ((5 : Int) ≤ 10)) := by decide

/-- C1 (amended): for every mark examined during a scroll check (registered,
element visible, direction filter matching) with numeric trigger point tp,
the mark is queued exactly when (previousScroll < tp) == (tp <=
currentScroll) — boolean equality of the two comparisons, so the trigger
point lies between the two offsets: downward crossings include tp equal to
the current offset, upward crossings include tp equal to the previous
offset. -/
theorem c1_crossing_amended (env : Env) (s : SMState) (k a : Nat) (tp : Int)
    (hmem : (k, a) ∈ s.scrollMarks)
    (hvis : elemVisibleV env (s.heap a).element = true)
    (hdir : directionMatches (s.heap a).direction JSVal.undef (some (dirOf env s)) = true)
    (htp : (s.heap a).triggerPoint = some tp) :
    (a ∈ queueOf env s) ↔ ((s.previousScroll < tp) ↔ (tp ≤ env.pageYOffset)) := by
  have hcr : crossedB s.previousScroll ((s.heap a).triggerPoint) env.pageYOffset = true ↔
      ((s.previousScroll < tp) ↔ (tp ≤ env.pageYOffset)) := by
    rw [htp]
    unfold crossedB jsLtTp jsTpLe
    rw [beq_iff_eq, decide_eq_decide]
  constructor
  · intro h
    unfold queueOf at h
    rcases List.mem_map.mp h with ⟨p, hp, hpa⟩
    have hpf := List.of_mem_filter hp
    subst hpa
    simp only [Bool.and_eq_true] at hpf
    exact hcr.mp hpf.2
  · intro h
    unfold queueOf
    refine List.mem_map.mpr ⟨(k, a), List.mem_filter.mpr ⟨hmem, ?_⟩, rfl⟩
    have hgoal : (elemVisibleV env (s.heap a).element &&
        directionMatches (s.heap a).direction JSVal.undef (some (dirOf env s)) &&
        crossedB s.previousScroll (s.heap a).triggerPoint env.pageYOffset) = true := by
      rw [Bool.and_eq_true, Bool.and_eq_true]
      exact ⟨⟨hvis, hdir⟩, hcr.mpr h⟩
    exact hgoal

/-- C1 witness: instantiating the amended crossing law at the concrete
scenario of one visible mark with trigger point 5 between offsets 0 and
10. -/
theorem c1_crossing_amended_witness :
    (7 ∈ queueOf envBase stC1) ↔
      ((stC1.previousScroll < 5) ↔ ((5 : Int) ≤ envBase.pageYOffset)) :=
  c1_crossing_amended envBase stC1 0 7 5 (by decide) (by decide) (by decide) (by decide)

/-- C4, counterexample to the claim as stated: on an empty registry with a
stopped clock, start() is a no-op and leaves the clock stopped — start is
NOT independent of registry emptiness (it requires scrollMarks.size to be
non-zero). -/
theorem c4_counterexample :
    stBase.scrollMarks = [] ∧ stBase.clock = false ∧
    start stBase = stBase ∧ (start stBase).clock = false :=
  ⟨rfl, rfl, rfl, rfl⟩

/-- C4 (amended): on a non-empty registry, start() leaves the clock running
and a second start() is a no-op; stop() always leaves the clock stopped and
a second stop() is a no-op; on an empty registry start() is a no-op and the
clock stays stopped (see the counterexample). -/
theorem c4_start_stop_amended (env : Env) (s : SMState)
    (h : s.scrollMarks.isEmpty = false) :
    (start s).clock = true ∧ start (start s) = start s ∧
    (stop env s).clock = false ∧ stop env (stop env s) = stop env s := by
  refine ⟨?_, start_idem s, stop_clock_false env s, stop_idem env s⟩
  unfold start
  rcases hc : s.clock with _ | _
  · rw [if_pos (by rw [h]; rfl)]
  · rw [if_neg (by simp)]
    exact hc

/-- C4 witness: the amended start/stop law at a concrete one-mark state. -/
theorem c4_start_stop_amended_witness :
    (start stOneMark).clock = true ∧ start (start stOneMark) = start stOneMark ∧
    (stop envBase stOneMark).clock = false ∧
    stop envBase (stop envBase stOneMark) = stop envBase stOneMark :=
  c4_start_stop_amended envBase stOneMark (by decide)

/-- C5, counterexample to the claim as stated: when the current scroll
offset equals the previous one, checkMarks does NOT retain the previous
direction — a state remembering direction down computes direction up
(previousScroll < currentScroll is false, so the ternary picks up). -/
theorem c5_counterexample :
    stEqDir.scrollDirection = some Direction.down ∧
    stEqDir.previousScroll = envBase.pageYOffset ∧
    (checkMarks envBase stEqDir).1.scrollDirection = some Direction.up := by decide

/-- C5 (amended): every scroll check sets the direction to down exactly when
previousScroll < currentScroll, and to up otherwise — in particular, equal
offsets yield direction up regardless of the direction of the previous
tick. -/
theorem c5_direction_amended (env : Env) (s : SMState) :
    (checkMarks env s).1.scrollDirection =
      some (if s.previousScroll < env.pageYOffset then Direction.down else Direction.up) :=
  checkMarks_sd env s

/-- C6: a config call with a single valid key whose numeric value is below
its minimum bound (1 for the throttles, 0 for the idle timeout) fails with
a RangeError naming the parameter, the bound and the value, and returns the
state unchanged — in particular the configuration is unchanged. -/
theorem c6_config_range (s : SMState) (k : String) (q : Int)
    (hk : validKeys.contains k = true) (hq : q < lowerLimit k) :
    getSetConfigState (some [(k, JSVal.num q)]) s =
      .error (.rangeErr k (lowerLimit k) (JSVal.num q), s) := by
  have hopt : setOption k (JSVal.num q) s =
      .error (.rangeErr k (lowerLimit k) (JSVal.num q)) := by
    unfold setOption
    rw [hk]
    rw [if_neg (by simp)]
    rw [if_neg (by simp [isNumberJS])]
    rw [if_pos (by unfold jsLtLimit; exact decide_eq_true hq)]
  unfold getSetConfigState setOptions
  dsimp only
  rw [hopt]

/-- C6 witness: config({scrollThrottle: -1}) fails with the RangeError and
leaves the default state untouched. -/
theorem c6_config_range_witness :
    getSetConfigState (some [("scrollThrottle", JSVal.num (-1))]) stBase =
      .error (.rangeErr "scrollThrottle" 1 (JSVal.num (-1)), stBase) :=
  c6_config_range stBase "scrollThrottle" (-1) (by decide) (by decide)

/-- C7, counterexample to the claim as stated: at the resize throttle
threshold with the document height changed from the last-seen 100 to 2000,
the height handling depends on the resize dirty flag — with the flag set,
the recompute is scheduled via the flag branch and the last-seen height is
neither compared nor updated (stays 100); only with the flag clear is the
height compared and recorded (becomes 2000). The comparison is NOT
performed independently of the flag. -/
theorem c7_counterexample :
    stRszFlag.resized = true ∧ stRszClear.resized = false ∧
    stRszFlag.previousHeight = 100 ∧ stRszClear.previousHeight = 100 ∧
    envBase.scrollHeight = 2000 ∧
    (resizeStep envBase stRszFlag).2 = [Event.scheduleRecompute] ∧
    (resizeStep envBase stRszFlag).1.previousHeight = 100 ∧
    (resizeStep envBase stRszClear).1.previousHeight = 2000 := by decide

/-- C7 (amended): on a resize-tick reaching the throttle threshold: with the
resized flag set, the idle recompute is scheduled unconditionally, the flag
is cleared and the last-seen height is not examined; with the flag clear, a
height different from the last-seen value schedules the recompute and
records the new height, while an unchanged height schedules nothing. -/
theorem c7_resize_amended (env : Env) (s : SMState)
    (ht : jsEqNum s.resizeTick s.config.resizeThrottle = true) :
    (s.resized = true →
      (resizeStep env s).2 = [Event.scheduleRecompute] ∧
      (resizeStep env s).1.previousHeight = s.previousHeight ∧
      (resizeStep env s).1.resized = false) ∧
    (s.resized = false → s.previousHeight ≠ env.scrollHeight →
      (resizeStep env s).2 = [Event.scheduleRecompute] ∧
      (resizeStep env s).1.previousHeight = env.scrollHeight) ∧
    (s.resized = false → s.previousHeight = env.scrollHeight →
      (resizeStep env s).2 = [] ∧
      (resizeStep env s).1.previousHeight = s.previousHeight) := by
  unfold resizeStep
  rw [if_pos ht]
  refine ⟨?_, ?_, ?_⟩
  · intro hr
    rw [if_pos hr]
    exact ⟨rfl, rfl, rfl⟩
  · intro hr hne
    rw [if_neg (by rw [hr]; simp)]
    rw [if_neg (by simp only [beq_iff_eq]; exact hne)]
    exact ⟨rfl, rfl⟩
  · intro hr he
    rw [if_neg (by rw [hr]; simp)]
    rw [if_pos (by rw [beq_iff_eq]; exact he)]
    exact ⟨rfl, rfl⟩

/-- C7 witness: the amended height-change law at the concrete flag-clear
state, where the changed height schedules the recompute and is recorded. -/
theorem c7_resize_amended_witness :
    (resizeStep envBase stRszClear).2 = [Event.scheduleRecompute] ∧
    (resizeStep envBase stRszClear).1.previousHeight = envBase.scrollHeight :=
  (c7_resize_amended envBase stRszClear (by decide)).2.1 (by decide) (by decide)

/-- C8: an add call whose mark passes the element and callback checks but
whose offset is not of an accepted form (not undefined, not a number, not a
function, not a percentage or px string) throws the TypeError naming the
parameter (offset), the expected shape ("a number, px, %, or a function")
and the actual value, and the error carries the state completely unchanged:
no mark is registered, the id counter and the heap are untouched. -/
theorem c8_invalid_offset (env : Env) (s : SMState) (a : Nat)
    (hel : isElemJS (s.heap a).element = true)
    (hcb : isFunctionJS (s.heap a).callback = true)
    (hoff : offsetAccepted (s.heap a).offset = false) :
    addOp env s a =
      .error (.typeErr "Optional" "offset" "a number, px, %, or a function"
        (s.heap a).offset, s) := by
  have herr : offsetToComputed (s.heap a).offset =
      .error (.typeErr "Optional" "offset" "a number, px, %, or a function"
        (s.heap a).offset) := by
    rcases hoc : offsetToComputed (s.heap a).offset with e | co
    · rw [offsetToComputed_error hoc]
    · unfold offsetAccepted at hoff
      rw [hoc] at hoff
      simp at hoff
  unfold addOp
  dsimp only
  rw [hel, hcb]
  rw [show (!true) = false from rfl]
  rw [if_neg (by simp), if_neg (by simp)]
  rw [herr]

/-- C8 witness: adding a mark whose offset is the boolean true fails with
the offset TypeError and returns the state unchanged. -/
theorem c8_invalid_offset_witness :
    addOp envBase stAdd8 9 =
      .error (.typeErr "Optional" "offset" "a number, px, %, or a function"
        (stAdd8.heap 9).offset, stAdd8) :=
  c8_invalid_offset envBase stAdd8 9 (by decide) (by decide) (by decide)

/-- C2: in every scroll check on a registry of marks with numeric trigger
points, the callback invocations of the trace are exactly the dispatch
order mapped to callback events — each carrying the current direction and
the mark reference itself — where the dispatch order is a permutation of
the queue of crossed marks, sorted ascending by trigger point when the
direction is down and descending when it is up. -/
theorem c2_dispatch_order (env : Env) (s : SMState) (hnum : numericTPs s) :
    callbackEvents (checkMarks env s).2 =
      (dispatchOrder env s).map
        (fun a => Event.callback (cbId ((s.heap a).callback)) (some (dirOf env s)) a) ∧
    List.Perm (dispatchOrder env s) (queueOf env s) ∧
    (dirOf env s = Direction.down →
      List.Pairwise (fun a b => tpD s a ≤ tpD s b) (dispatchOrder env s)) ∧
    (dirOf env s = Direction.up →
      List.Pairwise (fun a b => tpD s b ≤ tpD s a) (dispatchOrder env s)) := by
  have hqn : ∀ x ∈ queueOf env s, (s.heap x).triggerPoint ≠ none := by
    intro x hx
    rcases List.mem_map.mp (queueOf_sub env s x hx) with ⟨p, hp, hpa⟩
    exact hpa ▸ hnum p hp
  refine ⟨?_, dispatchOrder_perm env s, ?_, ?_⟩
  · rw [checkMarks_events, callbackEvents_catMapEv]
  · intro hdown
    have hp := pairwise_jsSort (r := sortRel s.heap (some (dirOf env s)))
      (P := fun x => (s.heap x).triggerPoint ≠ none)
      (sortRel_total s.heap (some (dirOf env s)))
      (sortRel_trans s.heap (some (dirOf env s)))
      hqn
    refine hp.imp ?_
    intro x y hxy
    unfold tpD
    rw [hdown] at hxy
    exact sortRel_down_le s.heap hxy
  · intro hup
    have hp := pairwise_jsSort (r := sortRel s.heap (some (dirOf env s)))
      (P := fun x => (s.heap x).triggerPoint ≠ none)
      (sortRel_total s.heap (some (dirOf env s)))
      (sortRel_trans s.heap (some (dirOf env s)))
      hqn
    refine hp.imp ?_
    intro x y hxy
    unfold tpD
    rw [hup] at hxy
    exact sortRel_up_le s.heap hxy

/-- C2 witness: the dispatch-order law at the two-mark crossing scenario
(trigger points 5 and 2, both crossed moving down from 0 to 10), whose
dispatch order is ascending. -/
theorem c2_dispatch_order_witness :
    (callbackEvents (checkMarks envBase stTwo).2 =
      (dispatchOrder envBase stTwo).map
        (fun a => Event.callback (cbId ((stTwo.heap a).callback))
          (some (dirOf envBase stTwo)) a)) ∧
    List.Pairwise (fun a b => tpD stTwo a ≤ tpD stTwo b) (dispatchOrder envBase stTwo) :=
  ⟨(c2_dispatch_order envBase stTwo (by decide)).1,
   (c2_dispatch_order envBase stTwo (by decide)).2.2.1 (by decide)⟩

/-- C3: a once-mark that is queued in a scroll check on a well-formed
registry has its remove call recorded exactly once in the trace,
immediately after its own callback event and before any later queued mark
fires; afterwards its key is gone from the registry, and no later scroll
check or clock tick from the resulting state ever invokes a callback with
this mark again. -/
theorem c3_once_removal (env : Env) (s : SMState) (a : Nat)
    (hWF : WF s) (hq : a ∈ queueOf env s) (ho : truthy (s.heap a).once = true) :
    ((checkMarks env s).2.count (Event.removeMark ((s.heap a).key)) = 1) ∧
    (∃ l1 l2, (checkMarks env s).2 =
      l1 ++ Event.callback (cbId ((s.heap a).callback)) (some (dirOf env s)) a ::
        Event.removeMark ((s.heap a).key) :: l2) ∧
    (mapHas (checkMarks env s).1.scrollMarks ((s.heap a).key) = false) ∧
    (∀ env2 : Env, ((checkMarks env2 (checkMarks env s).1).2.all
      (fun e => !isCallbackOf a e)) = true) ∧
    (∀ envs : List Env, ((runTicks envs (checkMarks env s).1).2.all
      (fun e => !isCallbackOf a e)) = true) := by
  obtain ⟨hkeys, haddr, hkc⟩ := hWF
  have hqnd : (queueOf env s).Nodup := queueOf_nodup env haddr
  have hand : (dispatchOrder env s).Nodup := ((dispatchOrder_perm env s).nodup_iff).mpr hqnd
  have had : a ∈ dispatchOrder env s := (dispatchOrder_perm env s).mem_iff.mpr hq
  have hauniq : ∀ b ∈ dispatchOrder env s, truthy (s.heap b).once = true →
      (s.heap b).key = (s.heap a).key → b = a := by
    intro b hb _ hk
    rcases List.mem_map.mp (queueOf_sub env s b ((dispatchOrder_perm env s).mem_iff.mp hb))
      with ⟨p, hp, hpb⟩
    rcases List.mem_map.mp (queueOf_sub env s a hq) with ⟨q2, hq2, hq2a⟩
    have h1 : (s.heap p.2).key = p.1 := hkc p hp
    have h2 : (s.heap q2.2).key = q2.1 := hkc q2 hq2
    rw [hpb] at h1
    rw [hq2a] at h2
    have hfst : p.1 = q2.1 := by rw [← h1, ← h2, hk]
    have hpq : p = q2 := List.inj_on_of_nodup_map hkeys hp hq2 hfst
    rw [← hpb, ← hq2a, hpq]
  have hgone : a ∉ addrsOf (checkMarks env s).1 :=
    runQueue_addrGone env (dispatchOrder env s)
      { s with scrollDirection := some (dirOf env s) } a hkc had ho
  refine ⟨?_, ?_, ?_, ?_, ?_⟩
  · rw [checkMarks_events]
    exact count_rm_one s.heap (some (dirOf env s)) ((s.heap a).key)
      (dispatchOrder env s) a had ho rfl hauniq hand
  · rw [checkMarks_events]
    obtain ⟨u, v, hl, he⟩ :=
      catMapEv_split (perMarkEvents s.heap (some (dirOf env s))) had
    refine ⟨catMapEv (perMarkEvents s.heap (some (dirOf env s))) u,
      catMapEv (perMarkEvents s.heap (some (dirOf env s))) v, ?_⟩
    rw [he, List.append_assoc]
    congr 1
    unfold perMarkEvents
    rw [if_pos ho]
    rfl
  · exact runQueue_keyGone env (dispatchOrder env s)
      { s with scrollDirection := some (dirOf env s) } a had ho
  · intro env2
    rw [List.all_eq_true]
    intro e he
    rw [Bool.not_eq_true']
    exact (no_fire_checkMarks env2 hgone).1 e he
  · intro envs
    rw [List.all_eq_true]
    intro e he
    rw [Bool.not_eq_true']
    exact (runTicks_no_fire envs hgone).1 e he

/-- C3 witness: the once-removal law at the concrete scenario where the
once-mark at address 3 (key 0, trigger point 5) and a plain mark are both
crossed; afterwards neither another scroll check nor a further clock tick
fires the once-mark again. -/
theorem c3_once_removal_witness :
    ((checkMarks envBase stOnce).2.count (Event.removeMark ((stOnce.heap 3).key)) = 1) ∧
    (mapHas (checkMarks envBase stOnce).1.scrollMarks ((stOnce.heap 3).key) = false) ∧
    ((checkMarks envBase (checkMarks envBase stOnce).1).2.all
      (fun e => !isCallbackOf 3 e) = true) ∧
    ((runTicks [envBase] (checkMarks envBase stOnce).1).2.all
      (fun e => !isCallbackOf 3 e) = true) :=
  ⟨(c3_once_removal envBase stOnce 3 (by decide) (by decide) (by decide)).1,
   (c3_once_removal envBase stOnce 3 (by decide) (by decide) (by decide)).2.2.1,
   (c3_once_removal envBase stOnce 3 (by decide) (by decide) (by decide)).2.2.2.1 envBase,
   (c3_once_removal envBase stOnce 3 (by decide) (by decide) (by decide)).2.2.2.2 [envBase]⟩

/-- C9: a remove call on a state with a running clock leaves the clock
stopped exactly when the registry is empty as a result; and a successful
add on an empty registry with a stopped clock leaves the clock running. -/
theorem c9_clock_registry (env : Env) (s t : SMState) (k a : Nat)
    (hclock : s.clock = true) (hempty : t.scrollMarks = []) (htclock : t.clock = false)
    (hok : (match addOp env t a with
            | .ok _ => true
            | .error _ => false) = true) :
    ((removeOp env k s).1.clock = false ↔ (removeOp env k s).1.scrollMarks = []) ∧
    (match addOp env t a with
     | .ok p => p.2.clock = true
     | .error _ => False) := by
  constructor
  · unfold removeOp
    dsimp only
    split
    · rename_i hemp
      constructor
      · intro _
        rw [(stop_inv env _).2.2]
        exact List.isEmpty_iff.mp hemp
      · intro _
        exact stop_clock_false env _
    · rename_i hemp
      constructor
      · intro hcf
        exfalso
        have hcf2 : s.clock = false := hcf
        rw [hclock] at hcf2
        exact Bool.noConfusion hcf2
      · intro hnil
        exfalso
        apply hemp
        have hnil2 : mapDelete s.scrollMarks k = [] := hnil
        rw [hnil2]
        rfl
  · rcases hadd : addOp env t a with e | p
    · rw [hadd] at hok
      simp at hok
    · rcases p with ⟨key, sf⟩
      exact (addOp_ok_shape hadd).2.2.1

/-- C9 witness: removing the only mark of a running one-mark state stops
the clock with the registry empty, and adding a valid mark to the empty
stopped state starts the clock. -/
theorem c9_clock_registry_witness :
    ((removeOp envBase 0 stOneMark).1.clock = false ↔
      (removeOp envBase 0 stOneMark).1.scrollMarks = []) ∧
    (match addOp envBase stAddOK 9 with
     | .ok p => p.2.clock = true
     | .error _ => False) :=
  c9_clock_registry envBase stOneMark stAddOK 0 9 (by decide) (by decide) (by decide)
    (by decide)

/-- C10: a successful add stores in the registry the very heap address the
caller passed (no copy), writes key = index and the trigger point onto the
mark object in place while preserving every caller-supplied field and every
other heap object, increments the id counter, and whenever that mark is
later queued in a scroll check, its callback event carries the same
address as the mark argument. -/
theorem c10_same_object (env : Env) (s : SMState) (a : Nat)
    (hel : isElemJS (s.heap a).element = true)
    (hcb : isFunctionJS (s.heap a).callback = true)
    (hdir : (isUndefinedJS (s.heap a).direction || (s.heap a).direction == JSVal.str "up" ||
      (s.heap a).direction == JSVal.str "down") = true)
    (honce : (isUndefinedJS (s.heap a).once || isBooleanJS (s.heap a).once) = true)
    (hdebug : (isUndefinedJS (s.heap a).debug || isBooleanJS (s.heap a).debug) = true)
    (hcalc : offsetCalcNumeric env (s.heap a).offset (s.heap a).element = true) :
    ∃ sf, addOp env s a = .ok (s.index, sf) ∧
      sf.scrollMarks = mapSet s.scrollMarks s.index a ∧
      sf.index = s.index + 1 ∧
      (∀ b, b ≠ a → sf.heap b = s.heap b) ∧
      (sf.heap a).element = (s.heap a).element ∧
      (sf.heap a).callback = (s.heap a).callback ∧
      (sf.heap a).offset = (s.heap a).offset ∧
      (sf.heap a).direction = (s.heap a).direction ∧
      (sf.heap a).once = (s.heap a).once ∧
      (sf.heap a).debug = (s.heap a).debug ∧
      (sf.heap a).key = s.index ∧
      (∀ env2, a ∈ queueOf env2 sf →
        Event.callback (cbId ((sf.heap a).callback)) (some (dirOf env2 sf)) a ∈
          (checkMarks env2 sf).2) := by
  obtain ⟨⟨key, sf⟩, hadd⟩ := addOp_succeeds env s a hel hcb hdir honce hdebug hcalc
  have hsh := addOp_ok_shape hadd
  refine ⟨sf, ?_, hsh.2.2.2.1, hsh.2.1, hsh.2.2.2.2.1, hsh.2.2.2.2.2.1,
    hsh.2.2.2.2.2.2.1, hsh.2.2.2.2.2.2.2.1, hsh.2.2.2.2.2.2.2.2.1,
    hsh.2.2.2.2.2.2.2.2.2.1, hsh.2.2.2.2.2.2.2.2.2.2.1, hsh.2.2.2.2.2.2.2.2.2.2.2,
    fun env2 hq => checkMarks_fires env2 sf hq⟩
  rw [← hsh.1]
  exact hadd

/-- C10 witness: adding the valid mark object at address 9 to the empty
state stores that very address under key 0, mutates only the
library-written fields, and a subsequent crossing passes address 9 to the
callback. -/
theorem c10_same_object_witness :
    ∃ sf, addOp envBase stAddOK 9 = .ok (stAddOK.index, sf) ∧
      sf.scrollMarks = mapSet stAddOK.scrollMarks stAddOK.index 9 ∧
      sf.index = stAddOK.index + 1 ∧
      (∀ b, b ≠ 9 → sf.heap b = stAddOK.heap b) ∧
      (sf.heap 9).element = (stAddOK.heap 9).element ∧
      (sf.heap 9).callback = (stAddOK.heap 9).callback ∧
      (sf.heap 9).offset = (stAddOK.heap 9).offset ∧
      (sf.heap 9).direction = (stAddOK.heap 9).direction ∧
      (sf.heap 9).once = (stAddOK.heap 9).once ∧
      (sf.heap 9).debug = (stAddOK.heap 9).debug ∧
      (sf.heap 9).key = stAddOK.index ∧
      (∀ env2, 9 ∈ queueOf env2 sf →
        Event.callback (cbId ((sf.heap 9).callback)) (some (dirOf env2 sf)) 9 ∈
          (checkMarks env2 sf).2) :=
  c10_same_object envBase stAddOK 9 (by decide) (by decide) (by decide) (by decide)
    (by decide) (by decide)

end Scrollmarks
